import Mathlib

/-!
Verification of the PDF table-extraction pipeline (`src/app.py`).

The embedding models:
- the table normalizer — the inline `pd.DataFrame(table)` /
  `df.dropna(how='all').dropna(axis=1, how='all')` / `df.empty` steps of
  `extract_tables_from_pdf` (src/app.py lines 44-49);
- the extraction pipeline `extract_tables_from_pdf` (lines 14-71), with
  the page-table detector and the document opener abstracted as data
  (a page either yields a list of raw tables or raises, a document either
  opens to a list of pages or raises);
- the consolidator — the `pd.concat` call and its `combine_error`
  fallback (lines 121-191), with the possibility that `pd.concat`
  raises modelled as a boolean oracle;
- the upload validator `validate_pdf_file` (lines 73-94), with the
  stream modelled as data plus a read position, and the possibility
  that reading the header raises modelled as a boolean field.

Cells are nullable strings (`Option String`): pdfplumber reports each
cell as a string or `None`, and pandas' `dropna` treats exactly `None`
(null) as missing — an empty string is a value.
-/

/-- A table cell as reported by pdfplumber: a string or null. -/
abbrev Cell := Option String

/-- A raw table from the detector: a possibly ragged list of rows. -/
abbrev RawTable := List (List Cell)

/-- A rectangular grid, as stored in a pandas DataFrame. -/
abbrev Grid := List (List Cell)

/-- Number of columns pandas assigns to a list-of-rows: the maximum row
length (`pd.DataFrame(table)` pads ragged rows to the longest row). -/
def width (t : Grid) : Nat :=
  (t.map List.length).foldr Nat.max 0

/-- Pad one row to `w` cells with nulls, as `pd.DataFrame` does for a
short row of a ragged input. -/
def padRow (w : Nat) (r : List Cell) : List Cell :=
  r ++ List.replicate (w - r.length) none

/-- `pd.DataFrame(table)` (src/app.py line 44): the ragged raw table
becomes a rectangular grid, missing trailing cells becoming null. -/
def toDF (t : RawTable) : Grid :=
  t.map (padRow (width t))

/-- `df.dropna(how='all')` (line 47): keep exactly the rows that have at
least one non-null cell. -/
def dropNullRows (t : Grid) : Grid :=
  t.filter (fun r => r.any (fun c => c.isSome))

/-- Whether column `j` of the grid holds at least one non-null cell. -/
def colHasValue (t : Grid) (j : Nat) : Bool :=
  t.any (fun r => ((r.get? j).getD none).isSome)

/-- The column indices `dropna(axis=1, how='all')` keeps: those below the
grid's width whose column has at least one non-null cell, in order. -/
def keptIndices (t : Grid) (w : Nat) : List Nat :=
  (List.range w).filter (colHasValue t)

/-- `df.dropna(axis=1, how='all')` (line 47): every row is restricted to
the kept column indices, in their original order. -/
def dropNullCols (t : Grid) : Grid :=
  t.map (fun r => (keptIndices t (width t)).map (fun j => (r.get? j).getD none))

/-- The table normalizer (src/app.py lines 44-49): build the DataFrame,
drop fully-null rows, then fully-null columns; the result is kept only
`if not df.empty`, i.e. only if it still has at least one row and one
column. -/
def normalizeTable (raw : RawTable) : Option Grid :=
  let g := dropNullCols (dropNullRows (toDF raw))
  if g.isEmpty || g.all List.isEmpty then none else some g

/-- The per-raw-table step of the pipeline (lines 40-50): the
`if table and len(table) > 0` guard skips empty tables, then the
normalizer runs and the table is contributed only when non-empty. -/
def processRawTable (t : RawTable) : Option Grid :=
  if t.isEmpty then none else normalizeTable t

/-- What `page.extract_tables()` does on one page: either raises
(caught by the page-level handler, line 56) or returns raw tables. -/
inductive PageResult where
  | fail (msg : String)
  | ok (tables : List RawTable)
deriving DecidableEq

/-- Whether this page's detector raised. -/
def PageResult.isFail : PageResult → Bool
  | .fail _ => true
  | .ok _ => false

/-- How many raw tables the detector reported on this page (none when
it raised). -/
def reportedTableCount : PageResult → Nat
  | .fail _ => 0
  | .ok ts => ts.length

/-- A document as `pdfplumber.open` sees it: either opening raises
(caught at line 65) or it yields an ordered list of pages. -/
inductive PdfDocument where
  | openFail (msg : String)
  | opened (pages : List PageResult)
deriving DecidableEq

/-- A structured view of one entry of the pipeline's error list: the
source stores the formatted strings "Error opening PDF file: ...",
"Error processing page i: ..." and "Error processing table j on page
i: ..." (lines 53, 57, 66); the constructors keep scope, the 1-based
page/table index named by the message, and the underlying message. -/
inductive ExtractionError where
  | docOpen (msg : String)
  | page (pageIndex : Nat) (msg : String)
  | table (pageIndex tableIndex : Nat) (msg : String)
deriving DecidableEq

/-- The page an error is attributed to (none for the fatal open error). -/
def errorPageIndex : ExtractionError → Option Nat
  | .docOpen _ => none
  | .page i _ => some i
  | .table i _ _ => some i

/-- How many errors of the list are attributed to page `n`. -/
def errorsForPage (n : Nat) (es : List ExtractionError) : Nat :=
  es.countP (fun e => errorPageIndex e == some n)

/-- The tables one page contributes to `all_tables` (lines 40-50): for a
raised detection, none; otherwise each raw table that survives the
non-empty guard and normalization, in source order. -/
def tablesOfPage : PageResult → List Grid
  | .fail _ => []
  | .ok raws => raws.filterMap processRawTable

/-- One iteration of the page loop (lines 30-59), reporting 1-based page
index `i`: a raised detection records one page-scoped error and
contributes no tables; otherwise the page's surviving tables are
contributed and no error is recorded. -/
def processPage (i : Nat) (p : PageResult) : List Grid × List ExtractionError :=
  match p with
  | .fail msg => ([], [ExtractionError.page i msg])
  | .ok _ => (tablesOfPage p, [])

/-- The page loop of `extract_tables_from_pdf`, accumulating tables and
errors over the pages, `i` being the 1-based index of the first page. -/
def extractPages : Nat → List PageResult → List Grid × List ExtractionError
  | _, [] => ([], [])
  | i, p :: ps =>
      ((processPage i p).1 ++ (extractPages (i + 1) ps).1,
       (processPage i p).2 ++ (extractPages (i + 1) ps).2)

/-- `extract_tables_from_pdf` (src/app.py lines 14-71): a failed open is
one fatal error with empty results (lines 65-69); otherwise every page
is processed once, first page reported as page 1. -/
def extract_tables_from_pdf : PdfDocument → List Grid × List ExtractionError
  | .openFail msg => ([], [ExtractionError.docOpen msg])
  | .opened pages => extractPages 1 pages

/-- Pairs each element with its index, starting from `i`. -/
def zipIdxFrom (i : Nat) : List PageResult → List (Nat × PageResult)
  | [] => []
  | p :: ps => (i, p) :: zipIdxFrom (i + 1) ps

/-- The result of the consolidation stage (lines 121-191). -/
inductive ConsolidatedResult where
  | combined (t : Grid)
  | fallback (tables : List Grid) (reason : String)
deriving DecidableEq

/-- `pd.concat(all_tables, ignore_index=True)` (line 123): the column
labels of each DataFrame are `0..width-1`, so label alignment is
positional; the union of the column ranges is the range of the maximum
width, each table's rows are padded with nulls to it, and all rows are
stacked in order. -/
def concatTables (ts : List Grid) : Grid :=
  let w := (ts.map width).foldr Nat.max 0
  (ts.map (fun t => t.map (padRow w))).flatten

/-- The consolidator: the `try: pd.concat ... except combine_error`
block (lines 121-191). Whether the library call raises is outside the
model, so it is an explicit oracle `concatRaises`; when it raises, the
fallback offers exactly the original `all_tables` list, individually
(lines 176-189). -/
def consolidate (concatRaises : Bool) (reason : String) (ts : List Grid) :
    ConsolidatedResult :=
  if concatRaises then ConsolidatedResult.fallback ts reason
  else ConsolidatedResult.combined (concatTables ts)

/-- The tables an end user can export from a consolidated result. -/
def resultTables : ConsolidatedResult → List Grid
  | .combined t => [t]
  | .fallback ts _ => ts

/-- The uploaded file as the validator sees it: the `size` attribute,
the byte content, the stream read position, and whether reading the
header raises (the exception caught at line 91, modelled as an
oracle field). Bytes are naturals. -/
structure UploadedFile where
  size : Nat
  data : List Nat
  pos : Nat
  readRaises : Bool
deriving DecidableEq

/-- `uploaded_file.seek(p)`: set the read position. -/
def seekTo (f : UploadedFile) (p : Nat) : UploadedFile :=
  { f with pos := p }

/-- `uploaded_file.read(n)`: return up to `n` bytes from the current
position and advance it. -/
def readBytes (f : UploadedFile) (n : Nat) : List Nat × UploadedFile :=
  ((f.data.drop f.pos).take n,
   { f with pos := min (f.pos + n) f.data.length })

/-- The four bytes of the literal marker `b'%PDF'`. -/
def pdfMagic : List Nat := [37, 80, 68, 70]

/-- `validate_pdf_file` (src/app.py lines 73-94), returning the
validation message (`None` when all checks pass) together with the
upload's final stream state. The checks run in source order: presence,
non-empty, size cap, then the header check inside `try`: `seek(0)`,
`read(4)`, `seek(0)`, compare with `b'%PDF'`; a raising read yields
"Error reading file header". -/
def validate_pdf_file (u : Option UploadedFile) :
    Option String × Option UploadedFile :=
  match u with
  | none => (some "No file uploaded", none)
  | some f =>
    if f.size = 0 then (some "Uploaded file is empty", some f)
    else if 50 * 1024 * 1024 < f.size then
      (some "File size too large (maximum 50MB allowed)", some f)
    else if f.readRaises then
      (some "Error reading file header", some (seekTo f 0))
    else
      let f1 := seekTo f 0
      let hd := readBytes f1 4
      let f2 := seekTo hd.2 0
      if hd.1 = pdfMagic then (none, some f2)
      else (some "File does not appear to be a valid PDF", some f2)

/-- Modelled from the spec for comparison with the source normalizer:
a cell is "null/empty" when it is null or the empty string, and the
spec's algorithm removes every row, then every column, all of whose
cells are null/empty. -/
def cellBlank (c : Cell) : Bool :=
  match c with
  | none => true
  | some s => s = ""

/-- The row filter the spec describes: keep a row iff some cell is
neither null nor empty. -/
def specDropBlankRows (t : Grid) : Grid :=
  t.filter (fun r => r.any (fun c => !cellBlank c))

/-- Whether column `j` holds a cell that is neither null nor empty. -/
def specColHasValue (t : Grid) (j : Nat) : Bool :=
  t.any (fun r => !cellBlank ((r.get? j).getD none))

/-- The spec's normalizer, word for word from the claim: remove rows
whose every cell is null/empty, then such columns, `None` iff the
filtered grid has zero rows or zero columns. -/
def specNormalizeTable (raw : RawTable) : Option Grid :=
  let g1 := specDropBlankRows (toDF raw)
  let k := (List.range (width g1)).filter (specColHasValue g1)
  let g2 := g1.map (fun r => k.map (fun j => (r.get? j).getD none))
  if g2.isEmpty || g2.all List.isEmpty then none else some g2

/-! ### Helper lemmas -/

/-- Every row of a grid is at most as long as the grid's width. -/
theorem length_le_width {t : Grid} {r : List Cell} (h : r ∈ t) :
    r.length ≤ width t := by
  induction t with
  | nil => cases h
  | cons s ts ih =>
    rcases List.mem_cons.mp h with rfl | h'
    · exact Nat.le_max_left _ _
    · exact Nat.le_trans (ih h') (Nat.le_max_right _ _)

/-- A non-empty grid whose rows all have length `w` has width `w`. -/
theorem width_uniform {t : Grid} {w : Nat} (hne : t ≠ [])
    (h : ∀ r ∈ t, r.length = w) : width t = w := by
  induction t with
  | nil => exact absurd rfl hne
  | cons s ts ih =>
    show Nat.max s.length (width ts) = w
    rw [h s (List.mem_cons_self s ts)]
    by_cases hts : ts = []
    · subst hts; exact Nat.max_zero w
    · rw [ih hts (fun r hr => h r (List.mem_cons_of_mem s hr))]
      exact Nat.max_self w

/-- Mapping a function that fixes every member is the identity. -/
theorem map_mem_id {α : Type} {l : List α} {f : α → α}
    (h : ∀ a ∈ l, f a = a) : l.map f = l := by
  rw [List.map_congr_left h]
  exact List.map_id l

/-- Reading back each index of a row reproduces the row. -/
theorem range_map_getD (r : List Cell) :
    (List.range r.length).map (fun j => (r.get? j).getD none) = r := by
  induction r with
  | nil => rfl
  | cons c cs ih =>
    have h : (List.range cs.length).map
        ((fun j => (((c :: cs).get? j).getD none)) ∘ Nat.succ)
        = (List.range cs.length).map (fun j => ((cs.get? j).getD none)) := rfl
    rw [List.length_cons, List.range_succ_eq_map, List.map_cons, List.map_map,
      h, ih]
    rfl

/-- The page loop distributes over list append, the second part starting
at the shifted page index. -/
theorem extractPages_append (i : Nat) (a b : List PageResult) :
    extractPages i (a ++ b) =
      ((extractPages i a).1 ++ (extractPages (i + a.length) b).1,
       (extractPages i a).2 ++ (extractPages (i + a.length) b).2) := by
  induction a generalizing i with
  | nil => simp [extractPages]
  | cons p ps ih =>
    have harith : i + 1 + ps.length = i + (ps.length + 1) := by omega
    simp [extractPages, ih, harith, List.append_assoc]

/-- On pages whose detector does not raise, the page loop contributes
every page's surviving tables and no error. -/
theorem extractPages_all_ok (i : Nat) (ps : List PageResult)
    (h : ∀ p ∈ ps, p.isFail = false) :
    extractPages i ps = ((ps.map tablesOfPage).flatten, []) := by
  induction ps generalizing i with
  | nil => rfl
  | cons p ps ih =>
    have hp := h p (List.mem_cons_self p ps)
    cases p with
    | fail m => simp [PageResult.isFail] at hp
    | ok raws =>
      have ih' := ih (i + 1) (fun q hq => h q (List.mem_cons_of_mem _ hq))
      simp [extractPages, processPage, ih']

/-- The page loop is the flattening of the per-page outputs, pages taken
in order with their 1-based indices. -/
theorem extractPages_eq_perPage (i : Nat) (ps : List PageResult) :
    extractPages i ps =
      (((zipIdxFrom i ps).map (fun ip => (processPage ip.1 ip.2).1)).flatten,
       ((zipIdxFrom i ps).map (fun ip => (processPage ip.1 ip.2).2)).flatten) := by
  induction ps generalizing i with
  | nil => rfl
  | cons p ps ih => simp [extractPages, zipIdxFrom, ih]

/-- Every error the page loop records is a page-scoped error whose index
names a page whose detector raised. -/
theorem mem_errors_extractPages {e : ExtractionError} :
    ∀ (ps : List PageResult) (i : Nat), e ∈ (extractPages i ps).2 →
      ∃ k msg, ps.get? k = some (PageResult.fail msg) ∧
        e = ExtractionError.page (i + k) msg := by
  intro ps
  induction ps with
  | nil => intro i h; cases h
  | cons p ps ih =>
    intro i h
    rcases List.mem_append.mp h with hhd | htl
    · cases p with
      | fail m =>
        simp only [processPage, List.mem_singleton] at hhd
        exact ⟨0, m, rfl, by simpa using hhd⟩
      | ok raws => simp [processPage] at hhd
    · obtain ⟨k, m, hget, he⟩ := ih (i + 1) htl
      refine ⟨k + 1, m, hget, ?_⟩
      rw [he]
      congr 1
      omega

/-- Row count of the concatenation: the rows of every table, stacked. -/
theorem length_concatTables (ts : List Grid) :
    (concatTables ts).length = (ts.map List.length).sum := by
  unfold concatTables
  rw [List.length_flatten, List.map_map]
  congr 1
  apply List.map_congr_left
  intro t ht
  simp [List.length_map]

/-! ### Claim theorems -/

/-- C3: for every sequence of normalized tables given to the
consolidator, no table data is lost — the exported tables always hold
exactly as many rows as the input tables together, and when `pd.concat`
raises, the fallback offers every original input table unmodified (so in
particular the sum of row counts over the fallback tables equals the sum
of row counts over the input tables). -/
theorem consolidate_never_loses_rows (b : Bool) (reason : String)
    (ts : List Grid) :
    ((resultTables (consolidate b reason ts)).map List.length).sum
        = (ts.map List.length).sum
    ∧ consolidate true reason ts = ConsolidatedResult.fallback ts reason := by
  constructor
  · cases b <;> simp [consolidate, resultTables, length_concatTables]
  · rfl

/-- C4: validation performs its checks in source order with
short-circuit — missing upload, empty upload ("Uploaded file is empty"),
size cap at 50 MiB (strictly larger is rejected with the size error, so
exactly 50*1024*1024 bytes passes), then the `%PDF` signature check —
and returns `None` exactly when all checks pass. -/
theorem validate_pdf_file_checks (f : UploadedFile) :
    (validate_pdf_file none).1 = some "No file uploaded"
    ∧ (f.size = 0 →
        (validate_pdf_file (some f)).1 = some "Uploaded file is empty")
    ∧ (f.size ≠ 0 → 50 * 1024 * 1024 < f.size →
        (validate_pdf_file (some f)).1
          = some "File size too large (maximum 50MB allowed)")
    ∧ (f.size ≠ 0 → f.size ≤ 50 * 1024 * 1024 → f.readRaises = false →
        f.data.take 4 ≠ pdfMagic →
        (validate_pdf_file (some f)).1
          = some "File does not appear to be a valid PDF")
    ∧ ((validate_pdf_file (some f)).1 = none ↔
        f.size ≠ 0 ∧ f.size ≤ 50 * 1024 * 1024 ∧ f.readRaises = false
          ∧ f.data.take 4 = pdfMagic) := by
  refine ⟨rfl, ?_, ?_, ?_, ?_⟩
  · intro h0
    simp [validate_pdf_file, h0]
  · intro h0 h1
    simp [validate_pdf_file, h0, h1, Nat.not_lt.mpr (Nat.le_of_lt h1)]
  · intro h0 h1 h2 h3
    simp [validate_pdf_file, h0, Nat.not_lt.mpr h1, h2, seekTo, readBytes,
      List.drop_zero, h3]
  · constructor
    · intro h
      by_cases h0 : f.size = 0
      · simp [validate_pdf_file, h0] at h
      · by_cases h1 : 50 * 1024 * 1024 < f.size
        · simp [validate_pdf_file, h0, h1] at h
        · by_cases h2 : f.readRaises
          · simp [validate_pdf_file, h0, h1, h2] at h
          · by_cases h3 : f.data.take 4 = pdfMagic
            · exact ⟨h0, Nat.not_lt.mp h1, Bool.eq_false_iff.mpr h2, h3⟩
            · simp [validate_pdf_file, h0, h1, h2, seekTo, readBytes,
                List.drop_zero, h3] at h
    · rintro ⟨h0, h1, h2, h3⟩
      simp [validate_pdf_file, h0, Nat.not_lt.mpr h1, h2, seekTo, readBytes,
        List.drop_zero, h3]

/-- C4 witness: the claim's concrete cases — an empty upload, a 60 MiB
upload, a `%PNG`-signed upload, and a `%PDF`-signed upload of exactly
50*1024*1024 declared bytes. -/
theorem validate_pdf_file_checks_witness :
    (validate_pdf_file (some ⟨0, [], 0, false⟩)).1
        = some "Uploaded file is empty"
    ∧ (validate_pdf_file (some ⟨60 * 1024 * 1024, [37, 80, 68, 70], 0,
          false⟩)).1 = some "File size too large (maximum 50MB allowed)"
    ∧ (validate_pdf_file (some ⟨10, [37, 80, 78, 71, 1, 2, 3, 4, 5, 6], 0,
          false⟩)).1 = some "File does not appear to be a valid PDF"
    ∧ (validate_pdf_file (some ⟨50 * 1024 * 1024, [37, 80, 68, 70, 1, 2], 0,
          false⟩)).1 = none := by
  refine ⟨(validate_pdf_file_checks ⟨0, [], 0, false⟩).2.1 rfl,
    (validate_pdf_file_checks _).2.2.1 (by decide) (by decide),
    (validate_pdf_file_checks _).2.2.2.1 (by decide) (by decide) rfl
      (by decide),
    (validate_pdf_file_checks _).2.2.2.2.mpr
      ⟨by decide, by decide, rfl, by decide⟩⟩

/-- C9: for every upload whose checks all pass, validation leaves the
stream's read position at the start (the final `seek(0)` resets it), and
modifies no other state of the upload. -/
theorem validate_pdf_file_resets_stream (f : UploadedFile)
    (h0 : f.size ≠ 0) (h1 : f.size ≤ 50 * 1024 * 1024)
    (h2 : f.readRaises = false) (h3 : f.data.take 4 = pdfMagic) :
    validate_pdf_file (some f) = (none, some { f with pos := 0 }) := by
  simp [validate_pdf_file, h0, Nat.not_lt.mpr h1, h2, seekTo, readBytes,
    List.drop_zero, h3]

/-- C9 witness: the spec's valid PDF-signed 10-byte file, read position
initially 5, ends validated with the position back at the start and the
rest of the upload untouched. -/
theorem validate_pdf_file_resets_stream_witness :
    validate_pdf_file (some ⟨10, [37, 80, 68, 70, 1, 2, 3, 4, 5, 6], 5,
        false⟩)
      = (none, some ⟨10, [37, 80, 68, 70, 1, 2, 3, 4, 5, 6], 0, false⟩) :=
  validate_pdf_file_resets_stream _ (by decide) (by decide) rfl (by decide)

/-- C10: when the upload passed the presence and size checks but reading
the 4-byte header raises, validation does not propagate the exception —
it returns the validation error "Error reading file header". -/
theorem validate_pdf_file_read_failure (f : UploadedFile)
    (h0 : f.size ≠ 0) (h1 : f.size ≤ 50 * 1024 * 1024)
    (h2 : f.readRaises = true) :
    (validate_pdf_file (some f)).1 = some "Error reading file header" := by
  simp [validate_pdf_file, h0, Nat.not_lt.mpr h1, h2]

/-- C10 witness: a non-empty, size-conforming upload whose header read
raises is reported as a header-read validation error. -/
theorem validate_pdf_file_read_failure_witness :
    (validate_pdf_file (some ⟨10, [37, 80, 68, 70], 0, true⟩)).1
      = some "Error reading file header" :=
  validate_pdf_file_read_failure _ (by decide) (by decide) rfl

/-- C6: a document that fails to open yields the empty table sequence
and exactly one fatal document-open error; every document that opens is
processed to the end, each page contributing its tables and errors
exactly once, in page order — so the failed open is the only early
return. -/
theorem extract_open_failure_only_early_return :
    (∀ msg, extract_tables_from_pdf (PdfDocument.openFail msg)
        = ([], [ExtractionError.docOpen msg]))
    ∧ (∀ pages, extract_tables_from_pdf (PdfDocument.opened pages)
        = (((zipIdxFrom 1 pages).map
              (fun ip => (processPage ip.1 ip.2).1)).flatten,
           ((zipIdxFrom 1 pages).map
              (fun ip => (processPage ip.1 ip.2).2)).flatten)) :=
  ⟨fun _ => rfl, fun pages => extractPages_eq_perPage 1 pages⟩

/-- C1: when the detector raises on exactly one page (all pages before
and after it detect without raising), extraction still returns the
normalized tables of every other page in original page order, records
exactly one page-scoped error naming that page's 1-based index, takes no
tables from it, and returns normally rather than propagating. -/
theorem extract_isolates_single_detector_failure
    (pre post : List PageResult) (msg : String)
    (hpre : ∀ p ∈ pre, p.isFail = false)
    (hpost : ∀ p ∈ post, p.isFail = false) :
    extract_tables_from_pdf
        (PdfDocument.opened (pre ++ PageResult.fail msg :: post)) =
      (((pre ++ post).map tablesOfPage).flatten,
       [ExtractionError.page (pre.length + 1) msg]) := by
  show extractPages 1 (pre ++ PageResult.fail msg :: post) = _
  rw [extractPages_append, extractPages_all_ok 1 pre hpre]
  have hpost' :
      extractPages (1 + pre.length) (PageResult.fail msg :: post) =
        ([] ++ (extractPages (1 + pre.length + 1) post).1,
         [ExtractionError.page (1 + pre.length) msg]
           ++ (extractPages (1 + pre.length + 1) post).2) := rfl
  rw [hpost', extractPages_all_ok _ post hpost]
  simp [List.map_append, List.flatten_append, Nat.add_comm]

/-- C1 witness: a three-page document whose middle page's detector
raises keeps the first and third pages' tables, in order, and reports
exactly the page-2 error. -/
theorem extract_isolates_single_detector_failure_witness :
    extract_tables_from_pdf
        (PdfDocument.opened ([PageResult.ok [[[some "a"]]]]
          ++ PageResult.fail "boom" :: [PageResult.ok [[[some "b"]]]])) =
      ((([PageResult.ok [[[some "a"]]]]
          ++ [PageResult.ok [[[some "b"]]]]).map tablesOfPage).flatten,
       [ExtractionError.page ([PageResult.ok [[[some "a"]]]].length + 1)
          "boom"]) :=
  extract_isolates_single_detector_failure _ _ _ (by decide) (by decide)

/-- C7 counterexample: on a one-page document whose detector raises, one
error is attributed to page 1 while the detector reported zero raw
tables, so "errors plus contributed tables is at most the number of raw
tables reported" fails as stated. -/
theorem extract_page_accounting_counterexample :
    ¬ (errorsForPage 1
          ((extract_tables_from_pdf
            (PdfDocument.opened [PageResult.fail "detector crashed"])).2)
        + (tablesOfPage (PageResult.fail "detector crashed")).length
      ≤ reportedTableCount (PageResult.fail "detector crashed")) := by
  decide

/-- C7 (amended): for every page on which detection succeeds, the number
of errors attributed to that page plus the number of tables it
contributes is at most the number of raw tables the detector reported on
it — every reported raw table is accounted for as success, silent skip,
or error, and successful pages produce no errors at all. -/
theorem extract_page_accounting (pages : List PageResult) (k : Nat)
    (raws : List RawTable)
    (h : pages.get? k = some (PageResult.ok raws)) :
    errorsForPage (k + 1)
        ((extract_tables_from_pdf (PdfDocument.opened pages)).2)
      + (tablesOfPage (PageResult.ok raws)).length
      ≤ raws.length := by
  have hz : errorsForPage (k + 1) ((extractPages 1 pages).2) = 0 := by
    apply List.countP_eq_zero.mpr
    intro e he
    obtain ⟨k', m, hget, rfl⟩ := mem_errors_extractPages pages 1 he
    simp only [errorPageIndex, beq_iff_eq, Option.some.injEq]
    intro hkk
    have : k' = k := by omega
    subst this
    rw [hget] at h
    cases h
  show errorsForPage (k + 1) ((extractPages 1 pages).2) + _ ≤ _
  rw [hz, Nat.zero_add]
  exact List.length_filterMap_le _ _

/-- C7 witness: a one-page document with one detected raw table
contributes one table, no errors, within the bound of one reported raw
table. -/
theorem extract_page_accounting_witness :
    errorsForPage (0 + 1)
        ((extract_tables_from_pdf
          (PdfDocument.opened [PageResult.ok [[[some "a"]]]])).2)
      + (tablesOfPage (PageResult.ok [[[some "a"]]])).length
      ≤ ([[[some "a"]]] : List RawTable).length :=
  extract_page_accounting _ 0 _ rfl

/-- After the column drop, every row that had a non-null cell still has
one: the column of that cell is kept, and the cell survives in the row's
projection. -/
theorem dropNullCols_rows_have_value {d1 : Grid}
    (hrows : ∀ r ∈ d1, r.any (fun c => c.isSome) = true) :
    ∀ r' ∈ dropNullCols d1, r'.any (fun c => c.isSome) = true := by
  intro r' hr'
  simp only [dropNullCols] at hr'
  obtain ⟨r, hr, rfl⟩ := List.mem_map.mp hr'
  obtain ⟨c, hcmem, hcs⟩ := List.any_eq_true.mp (hrows r hr)
  obtain ⟨n, hn⟩ := List.mem_iff_get?.mp hcmem
  obtain ⟨hnlt, -⟩ := List.get?_eq_some.mp hn
  have hkeep : colHasValue d1 n = true := by
    apply List.any_eq_true.mpr
    exact ⟨r, hr, by rw [hn]; exact hcs⟩
  have hnK : n ∈ keptIndices d1 (width d1) :=
    List.mem_filter.mpr
      ⟨List.mem_range.mpr (Nat.lt_of_lt_of_le hnlt (length_le_width hr)),
       hkeep⟩
  apply List.any_eq_true.mpr
  refine ⟨(r.get? n).getD none, List.mem_map.mpr ⟨n, hnK, rfl⟩, ?_⟩
  rw [hn]
  exact hcs

/-- After the column drop, every column of the result holds a non-null
cell: position `j` of every row is the projection of the same kept
original column, which was kept because some row is non-null there. -/
theorem dropNullCols_cols_have_value (d1 : Grid) :
    ∀ j, j < width (dropNullCols d1) → colHasValue (dropNullCols d1) j = true := by
  intro j hj
  by_cases hd : d1 = []
  · subst hd
    simp [dropNullCols, width] at hj
  · have hlen : ∀ r' ∈ dropNullCols d1,
        r'.length = (keptIndices d1 (width d1)).length := by
      intro r' hr'
      simp only [dropNullCols] at hr'
      obtain ⟨r, hr, rfl⟩ := List.mem_map.mp hr'
      exact List.length_map _ _
    have hne : dropNullCols d1 ≠ [] := by
      simp only [dropNullCols]
      exact fun hmap => hd (List.map_eq_nil_iff.mp hmap)
    rw [width_uniform hne hlen] at hj
    obtain ⟨j₀, hj₀⟩ : ∃ j₀, (keptIndices d1 (width d1)).get? j = some j₀ := by
      cases hK : (keptIndices d1 (width d1)).get? j with
      | none => rw [List.get?_eq_none] at hK; omega
      | some j₀ => exact ⟨j₀, rfl⟩
    have hj₀split := List.mem_filter.mp (List.get?_mem hj₀)
    obtain ⟨r, hr, hrc⟩ := List.any_eq_true.mp hj₀split.2
    apply List.any_eq_true.mpr
    refine ⟨(keptIndices d1 (width d1)).map (fun j' => (r.get? j').getD none),
      ?_, ?_⟩
    · simp only [dropNullCols]
      exact List.mem_map.mpr ⟨r, hr, rfl⟩
    · simp only [List.get?_map, hj₀, Option.map_some', Option.getD_some]
      exact hrc

/-- C2: normalization is a total function — modelling that it never
throws on any raw table, ragged rows included, short rows being padded
with nulls — and it returns either `none` (the table was empty after
cleaning) or a table that is non-empty, has no fully-null row, and has
no fully-null column. -/
theorem normalizeTable_never_raises (raw : RawTable) :
    normalizeTable raw = none ∨
    ∃ t, normalizeTable raw = some t ∧ t ≠ []
      ∧ (∀ r ∈ t, r.any (fun c => c.isSome) = true)
      ∧ (∀ j < width t, colHasValue t j = true) := by
  by_cases hc : (dropNullCols (dropNullRows (toDF raw))).isEmpty
      || (dropNullCols (dropNullRows (toDF raw))).all List.isEmpty
  · left
    simp only [normalizeTable]
    rw [if_pos hc]
  · right
    refine ⟨dropNullCols (dropNullRows (toDF raw)), ?_, ?_, ?_, ?_⟩
    · simp only [normalizeTable]
      rw [if_neg hc]
    · intro h
      rw [h] at hc
      simp at hc
    · apply dropNullCols_rows_have_value
      intro r hr
      exact (List.mem_filter.mp hr).2
    · exact fun j hj => dropNullCols_cols_have_value _ j hj

/-- C2 witness: a concrete ragged table with a fully-null row — the
invariant instantiated at it. -/
theorem normalizeTable_never_raises_witness :
    normalizeTable [[some "a", none], [none, none]] = none ∨
    ∃ t, normalizeTable [[some "a", none], [none, none]] = some t ∧ t ≠ []
      ∧ (∀ r ∈ t, r.any (fun c => c.isSome) = true)
      ∧ (∀ j < width t, colHasValue t j = true) :=
  normalizeTable_never_raises [[some "a", none], [none, none]]

/-- C8: a table already in normalized form — non-empty, rectangular of
positive width, no fully-null row and no fully-null column — is returned
unchanged by normalization. -/
theorem normalizeTable_idempotent (t : Grid) (w : Nat) (hw : 0 < w)
    (hne : t ≠ []) (hrect : ∀ r ∈ t, r.length = w)
    (hrow : ∀ r ∈ t, r.any (fun c => c.isSome) = true)
    (hcol : ∀ j < w, colHasValue t j = true) :
    normalizeTable t = some t := by
  have hwt : width t = w := width_uniform hne hrect
  have hpad : toDF t = t := by
    unfold toDF
    apply map_mem_id
    intro r hr
    unfold padRow
    rw [hwt, hrect r hr, Nat.sub_self]
    simp
  have hdrop : dropNullRows t = t := List.filter_eq_self.mpr hrow
  have hK : keptIndices t (width t) = List.range w := by
    unfold keptIndices
    rw [hwt]
    apply List.filter_eq_self.mpr
    intro j hj
    exact hcol j (List.mem_range.mp hj)
  have hcols : dropNullCols t = t := by
    unfold dropNullCols
    rw [hK]
    apply map_mem_id
    intro r hr
    rw [← hrect r hr]
    exact range_map_getD r
  have h1 : t.isEmpty = false := by
    cases t with
    | nil => exact absurd rfl hne
    | cons a b => rfl
  have h2 : t.all List.isEmpty = false := by
    cases t with
    | nil => exact absurd rfl hne
    | cons r0 rs =>
      have hr0 : r0.length = w := hrect r0 (List.mem_cons_self r0 rs)
      have hr0e : r0.isEmpty = false := by
        cases r0 with
        | nil => simp at hr0; omega
        | cons c cc => rfl
      simp [List.all_cons, hr0e]
  simp only [normalizeTable, hpad, hdrop, hcols]
  simp [h1, h2]

/-- C8 witness: a one-cell normalized table maps to itself. -/
theorem normalizeTable_idempotent_witness :
    normalizeTable [[some "a"]] = some [[some "a"]] :=
  normalizeTable_idempotent [[some "a"]] 1 (by decide) (by decide) (by decide)
    (by decide) (by decide)

/-- The normalizer returns `none` exactly when no row survives the row
drop or no column survives the column drop. -/
theorem normalizeTable_eq_none_iff (raw : RawTable) :
    normalizeTable raw = none ↔
      (dropNullRows (toDF raw) = []
        ∨ keptIndices (dropNullRows (toDF raw))
            (width (dropNullRows (toDF raw))) = []) := by
  simp only [normalizeTable]
  by_cases hd : dropNullRows (toDF raw) = []
  · simp [hd, dropNullCols]
  · by_cases hK : keptIndices (dropNullRows (toDF raw))
        (width (dropNullRows (toDF raw))) = []
    · have hall : (dropNullCols (dropNullRows (toDF raw))).all
          List.isEmpty = true := by
        apply List.all_eq_true.mpr
        intro r' hr'
        simp only [dropNullCols, hK] at hr'
        obtain ⟨r, hr, rfl⟩ := List.mem_map.mp hr'
        rfl
      simp [hall, hK]
    · have h1 : (dropNullCols (dropNullRows (toDF raw))).isEmpty = false := by
        simp only [dropNullCols]
        exact List.isEmpty_eq_false.mpr
          (fun hmap => hd (List.map_eq_nil_iff.mp hmap))
      have h2 : (dropNullCols (dropNullRows (toDF raw))).all
          List.isEmpty = false := by
        cases hcase : dropNullRows (toDF raw) with
        | nil => exact absurd hcase hd
        | cons a b =>
          rw [hcase] at hK
          simp only [dropNullCols, hcase, List.map_cons, List.all_cons]
          have hie : ((keptIndices (a :: b) (width (a :: b))).map
              (fun j => ((a.get? j).getD none))).isEmpty = false :=
            List.isEmpty_eq_false.mpr
              (fun hmap => hK (List.map_eq_nil_iff.mp hmap))
          rw [hie]
          exact Bool.false_and _
      simp [h1, h2, hd, hK]

/-- C5 counterexample: a table whose single row consists of one
empty-string cell. The claim says a row whose every cell is null/empty
is removed, which would leave zero rows and hence `None`; the code's
`dropna` treats the empty string as a value, keeps the row, and returns
the table. `specNormalizeTable` is the claim's algorithm word for word,
for contrast. -/
theorem normalizeTable_empty_string_counterexample :
    normalizeTable [[some ""]] = some [[some ""]]
    ∧ specNormalizeTable [[some ""]] = none := by
  decide

/-- C5 (amended): normalization removes exactly those rows whose every
cell is null — the empty string counts as a value, not as empty — then
exactly those columns whose every remaining cell is null, preserving the
relative order of surviving rows (a sublist of the padded grid) and of
surviving columns (a sublist of the column range), and returns `None`
iff no row or no column survives. -/
theorem normalizeTable_drops_null_rows_then_null_columns (raw : RawTable) :
    (dropNullRows (toDF raw)).Sublist (toDF raw)
    ∧ (∀ r, r ∈ dropNullRows (toDF raw) ↔
        r ∈ toDF raw ∧ r.any (fun c => c.isSome) = true)
    ∧ (keptIndices (dropNullRows (toDF raw))
        (width (dropNullRows (toDF raw)))).Sublist
        (List.range (width (dropNullRows (toDF raw))))
    ∧ (∀ j, j ∈ keptIndices (dropNullRows (toDF raw))
          (width (dropNullRows (toDF raw))) ↔
        j < width (dropNullRows (toDF raw))
          ∧ colHasValue (dropNullRows (toDF raw)) j = true)
    ∧ (normalizeTable raw = none ↔
        (dropNullRows (toDF raw) = []
          ∨ keptIndices (dropNullRows (toDF raw))
              (width (dropNullRows (toDF raw))) = [])) := by
  refine ⟨List.filter_sublist _, fun r => List.mem_filter,
    List.filter_sublist _, fun j => ?_, normalizeTable_eq_none_iff raw⟩
  constructor
  · intro hj
    have h := List.mem_filter.mp hj
    exact ⟨List.mem_range.mp h.1, h.2⟩
  · rintro ⟨hjw, hjc⟩
    exact List.mem_filter.mpr ⟨List.mem_range.mpr hjw, hjc⟩

/-- C5 amended witness: on a fully-null table the characterization
instantiates to: the normalizer returns `None` because no row survives. -/
theorem normalizeTable_drops_null_rows_then_null_columns_witness :
    normalizeTable [[none, none]] = none ↔
      (dropNullRows (toDF [[none, none]]) = []
        ∨ keptIndices (dropNullRows (toDF [[none, none]]))
            (width (dropNullRows (toDF [[none, none]]))) = []) :=
  (normalizeTable_drops_null_rows_then_null_columns [[none, none]]).2.2.2.2

/-- C3 witness: two concrete tables, concatenated and in fallback. -/
theorem consolidate_never_loses_rows_witness :
    ((resultTables (consolidate false "shape mismatch"
          [[[some "a"]], [[some "b"], [some "c"]]])).map List.length).sum
        = ([[[some "a"]], [[some "b"], [some "c"]]].map List.length).sum
    ∧ consolidate true "shape mismatch" [[[some "a"]], [[some "b"], [some "c"]]]
        = ConsolidatedResult.fallback [[[some "a"]], [[some "b"], [some "c"]]]
            "shape mismatch" :=
  consolidate_never_loses_rows false "shape mismatch" _

/-- C6 witness: a concrete corrupt document yields empty output and the
single fatal error. -/
theorem extract_open_failure_only_early_return_witness :
    extract_tables_from_pdf (PdfDocument.openFail "corrupt")
      = ([], [ExtractionError.docOpen "corrupt"]) :=
  extract_open_failure_only_early_return.1 "corrupt"
